import Mathlib

/-
Verification of the bulk_codegen pipeline (dbt-bulk-codegen).

The definitions below are a shallow embedding of src/dbt_bulk_codegen/bulk_codegen.py:
strings of the program are Lean `String`s, file contents and process output are
`List Char`, the filesystem is an association list from paths to contents, and the
external `dbt` processes are an oracle function from command strings to results.
-/

set_option maxRecDepth 10000

/-! Text processing: the module-level regular expression
`regex_ansi_escape_sequences` (ESC then either one byte of the class 0x40-0x5A,
0x5C-0x5F, or a CSI sequence: 0x5B, then parameter bytes 0x30-0x3F, then
intermediate bytes 0x20-0x2F, then one final byte 0x40-0x7E) and the
Python `str.find` / slice semantics used at lines 179-180 and 206-207. -/

def escChar : Char := '\x1b'

/-- The character class `[@-Z\\-_]` of the regex: code points 0x40-0x5A and 0x5C-0x5F
(the range `\\-_` spans backslash through underscore, so it includes `]`). -/
def isFeByte (c : Char) : Bool :=
  (64 ≤ c.toNat && c.toNat ≤ 90) || (92 ≤ c.toNat && c.toNat ≤ 95)

/-- The parameter-byte class `[0-?]`: code points 0x30-0x3F. -/
def isCsiParamByte (c : Char) : Bool := 48 ≤ c.toNat && c.toNat ≤ 63

/-- The intermediate-byte class of the regex: code points 0x20-0x2F. -/
def isCsiIntermediateByte (c : Char) : Bool := 32 ≤ c.toNat && c.toNat ≤ 47

/-- The final-byte class `[@-~]`: code points 0x40-0x7E. -/
def isCsiFinalByte (c : Char) : Bool := 64 ≤ c.toNat && c.toNat ≤ 126

/-- Match the part of the regex after the leading ESC at the start of `l`; on success
return the remaining characters after the match.  The three CSI byte classes are
pairwise disjoint, so greedy matching without backtracking is exact here. -/
def matchEscTail (l : List Char) : Option (List Char) :=
  match l with
  | [] => none
  | c :: rest =>
    if isFeByte c then some rest
    else if c = '[' then
      match (rest.dropWhile isCsiParamByte).dropWhile isCsiIntermediateByte with
      | d :: rest2 => if isCsiFinalByte d then some rest2 else none
      | [] => none
    else none

/-- Fueled scanner for `regex_ansi_escape_sequences.sub('', s)`: find non-overlapping
matches left to right and delete them.  Every step consumes at least one character,
so fuel `s.length` is always sufficient. -/
def ansiSubFuel : Nat → List Char → List Char
  | 0, s => s
  | _ + 1, [] => []
  | fuel + 1, c :: rest =>
    if c = escChar then
      match matchEscTail rest with
      | some rest2 => ansiSubFuel fuel rest2
      | none => c :: ansiSubFuel fuel rest
    else c :: ansiSubFuel fuel rest

/-- The substitution `regex_ansi_escape_sequences.sub` with empty replacement, on a character list. -/
def regexAnsiEscapeSub (s : List Char) : List Char := ansiSubFuel s.length s

/-- Whether the regex `regex_ansi_escape_sequences` matches somewhere in `s`. -/
def hasAnsiOccurrence : List Char → Bool
  | [] => false
  | c :: rest =>
    if c = escChar then (matchEscTail rest).isSome || hasAnsiOccurrence rest
    else hasAnsiOccurrence rest

/-- Python `s.find(m)` restricted to a successful hit: index of the first occurrence
of `m` as a contiguous substring of `s`, if any. -/
def findIdx : List Char → List Char → Option Nat
  | [], m => if m.isPrefixOf [] then some 0 else none
  | s@(_ :: rest), m =>
    if m.isPrefixOf s then some 0 else (findIdx rest m).map (· + 1)

/-- Python `s.find(m)`: first index, or the sentinel `-1` when not found. -/
def pyFind (s m : List Char) : Int :=
  match findIdx s m with
  | some n => (n : Int)
  | none => -1

/-- Python `s[i:]` for an `Int` index (a negative index counts from the end,
clamped at the start of the string). -/
def pySliceFrom (s : List Char) (i : Int) : List Char :=
  if 0 ≤ i then s.drop i.toNat else s.drop (s.length - (-i).toNat)

/-- Lines 179-180 / 206-207: `raw.stdout[raw.stdout.find(marker):]` followed by
`regex_ansi_escape_sequences.sub('', ...)`. -/
def cleanOutput (marker out : List Char) : List Char :=
  regexAnsiEscapeSub (pySliceFrom out (pyFind out marker))

/-- The payload marker of the source phase, `'version: 2'`. -/
def markerSource : List Char := "version: 2".toList

/-- The payload marker of the base-model phase, `'with source as'`. -/
def markerBaseModel : List Char := "with source as".toList

/-! Command planner, source phase (`source_cmd_generator`, lines 90-110). -/

/-- Model of `os.path.join` for the relative path components this program joins. -/
def pathJoin (a b : String) : String := a ++ "/" ++ b

/-- One element of the list built by `source_cmd_generator`: in the Python code a
single-key dict `{source: {...}}` whose payload has exactly these string fields. -/
structure SourceMapping where
  source : String
  destination_folder : String
  destination_file_name : String
  source_destination_path : String
  source_command : String
deriving DecidableEq, Repr

/-- The f-string of lines 103-104, with `{generate_columns}` rendered the way
Python renders a `bool`. -/
def source_command_string (db_name source : String) (generate_columns : Bool) : String :=
  "dbt run-operation generate_source --args \x27\x7b\"schema_name\": \"" ++ source
    ++ "\", \"database_name\": \"" ++ db_name ++ "\", \"generate_columns\": "
    ++ (if generate_columns then "True" else "False") ++ "\x7d\x27"

/-- Embedding of `source_cmd_generator` (lines 90-110).  Besides the returned list it calls
`os.makedirs(destination_folder, exist_ok=True)` once per schema; the second
component records those directory paths in call order. -/
def source_cmd_generator (db_name : String) (source_list : List String)
    (generate_columns : Bool) (destination_folder_path : String) :
    List SourceMapping × List String :=
  match source_list with
  | [] => ([], [])
  | source :: rest =>
    let destination_folder := pathJoin destination_folder_path source
    let output_file_name := "_src_" ++ source ++ ".yml"
    let destination_file_path := pathJoin destination_folder output_file_name
    let src_cmd := source_command_string db_name source generate_columns
    let out := source_cmd_generator db_name rest generate_columns destination_folder_path
    (⟨source, destination_folder, output_file_name, destination_file_path, src_cmd⟩
        :: out.1,
      destination_folder :: out.2)

/-! Structured data (the image of `yaml.safe_load`) and the artifact scanner
`src_yml_scan` (lines 113-130). -/

inductive Yaml where
  | nullv : Yaml
  | str : String → Yaml
  | list : List Yaml → Yaml
  | map : List (String × Yaml) → Yaml
deriving Repr

mutual

def Yaml.decEq : (a b : Yaml) → Decidable (a = b)
  | .nullv, .nullv => isTrue rfl
  | .nullv, .str _ => isFalse (fun h => Yaml.noConfusion h)
  | .nullv, .list _ => isFalse (fun h => Yaml.noConfusion h)
  | .nullv, .map _ => isFalse (fun h => Yaml.noConfusion h)
  | .str _, .nullv => isFalse (fun h => Yaml.noConfusion h)
  | .str a, .str b =>
    match String.decEq a b with
    | isTrue h => isTrue (by rw [h])
    | isFalse h => isFalse (fun hh => h (by injection hh))
  | .str _, .list _ => isFalse (fun h => Yaml.noConfusion h)
  | .str _, .map _ => isFalse (fun h => Yaml.noConfusion h)
  | .list _, .nullv => isFalse (fun h => Yaml.noConfusion h)
  | .list _, .str _ => isFalse (fun h => Yaml.noConfusion h)
  | .list xs, .list ys =>
    match Yaml.decEqList xs ys with
    | isTrue h => isTrue (by rw [h])
    | isFalse h => isFalse (fun hh => h (by injection hh))
  | .list _, .map _ => isFalse (fun h => Yaml.noConfusion h)
  | .map _, .nullv => isFalse (fun h => Yaml.noConfusion h)
  | .map _, .str _ => isFalse (fun h => Yaml.noConfusion h)
  | .map _, .list _ => isFalse (fun h => Yaml.noConfusion h)
  | .map xs, .map ys =>
    match Yaml.decEqPairs xs ys with
    | isTrue h => isTrue (by rw [h])
    | isFalse h => isFalse (fun hh => h (by injection hh))

def Yaml.decEqList : (a b : List Yaml) → Decidable (a = b)
  | [], [] => isTrue rfl
  | [], _ :: _ => isFalse (fun h => List.noConfusion h)
  | _ :: _, [] => isFalse (fun h => List.noConfusion h)
  | x :: xs, y :: ys =>
    match Yaml.decEq x y, Yaml.decEqList xs ys with
    | isTrue h1, isTrue h2 => isTrue (by rw [h1, h2])
    | isFalse h1, _ => isFalse (fun h => h1 (by injection h))
    | _, isFalse h2 => isFalse (fun h => h2 (by injection h))

def Yaml.decEqPairs : (a b : List (String × Yaml)) → Decidable (a = b)
  | [], [] => isTrue rfl
  | [], _ :: _ => isFalse (fun h => List.noConfusion h)
  | _ :: _, [] => isFalse (fun h => List.noConfusion h)
  | (k1, v1) :: xs, (k2, v2) :: ys =>
    match String.decEq k1 k2, Yaml.decEq v1 v2, Yaml.decEqPairs xs ys with
    | isTrue h0, isTrue h1, isTrue h2 => isTrue (by rw [h0, h1, h2])
    | isFalse h0, _, _ =>
      isFalse (fun h => h0 (by injection h with h3 h4; exact congrArg Prod.fst h3))
    | _, isFalse h1, _ =>
      isFalse (fun h => h1 (by injection h with h3 h4; exact congrArg Prod.snd h3))
    | _, _, isFalse h2 => isFalse (fun h => h2 (by injection h))

end

instance : DecidableEq Yaml := Yaml.decEq

/-- Dictionary lookup on a parsed mapping (first match). -/
def yamlLookup (k : String) : List (String × Yaml) → Option Yaml
  | [] => none
  | (k2, v) :: rest => if k2 = k then some v else yamlLookup k rest

/-- The extraction `[data_loaded][0]['sources'][0]['tables']` followed by reading
`d['name']` for each entry (line 122-124).  `none` models the uncaught Python
exception (KeyError / TypeError / IndexError) on any shape mismatch. -/
def extractTableNames (data : Yaml) : Option (List String) :=
  match data with
  | .map m =>
    match yamlLookup "sources" m with
    | some (.list (s0 :: _)) =>
      match s0 with
      | .map sm =>
        match yamlLookup "tables" sm with
        | some (.list ts) =>
          ts.mapM fun t =>
            match t with
            | .map tm =>
              match yamlLookup "name" tm with
              | some (.str n) => some n
              | _ => none
            | _ => none
        | _ => none
      | _ => none
    | _ => none
  | _ => none

/-- A table entry added by `src_yml_scan`: in Python a single-key dict
`{name: {"file_name": path}}`. -/
structure TableMapping where
  table_name : String
  file_name : String
deriving DecidableEq, Repr

/-- A `SourceMapping` after `src_yml_scan` has annotated it with its tables. -/
structure SourceTableMapping where
  source : String
  destination_folder : String
  destination_file_name : String
  source_destination_path : String
  source_command : String
  tables : List TableMapping
deriving DecidableEq, Repr

/-- Errors of the modelled run, replacing the uncaught Python exceptions. -/
inductive RunError where
  | generationFailed : String → RunError
  | scanReadFailed : String → RunError
  | malformedArtifact : String → RunError
deriving DecidableEq, Repr

/-- The filesystem visible to the program: paths with their file contents. -/
abbrev FS := List (String × List Char)

/-- Contents of the file at `p`, if present (first match wins). -/
def fsRead : FS → String → Option (List Char)
  | [], _ => none
  | (q, c) :: rest, p => if q = p then some c else fsRead rest p

/-- Model of `os.path.isfile` on the modelled filesystem. -/
def fsExists (fs : FS) (p : String) : Bool := (fsRead fs p).isSome

/-- Model of `open(p, mode).write(c)`: mode `'a'` when `append`, else mode `'w'`. -/
def fsWrite (fs : FS) (p : String) (append : Bool) (c : List Char) : FS :=
  let newContents :=
    if append then
      match fsRead fs p with
      | some old => old ++ c
      | none => c
    else c
  (p, newContents) :: fs

/-- Embedding of `src_yml_scan` (lines 113-130): read each source YAML file back, parse it with
the oracle `parse` (standing for `yaml.safe_load`), extract the declared tables and
derive each table's staging SQL path. -/
def src_yml_scan (parse : List Char → Option Yaml) (fs : FS) :
    List SourceMapping → Except RunError (List SourceTableMapping)
  | [] => .ok []
  | m :: rest =>
    match fsRead fs m.source_destination_path with
    | none => .error (.scanReadFailed m.source_destination_path)
    | some contents =>
      match parse contents with
      | none => .error (.malformedArtifact m.source_destination_path)
      | some data =>
        match extractTableNames data with
        | none => .error (.malformedArtifact m.source_destination_path)
        | some names =>
          let tables := names.map fun n =>
            TableMapping.mk n
              (pathJoin m.destination_folder ("stg_" ++ m.source ++ "__" ++ n ++ ".sql"))
          match src_yml_scan parse fs rest with
          | .error e => .error e
          | .ok rest2 =>
            .ok (⟨m.source, m.destination_folder, m.destination_file_name,
                  m.source_destination_path, m.source_command, tables⟩ :: rest2)

/-! Command planner, base-model phase (lines 133-162). -/

/-- A table entry after `base_command_generator` added the `base_command` field. -/
structure BaseEntry where
  table_name : String
  file_name : String
  base_command : String
deriving DecidableEq, Repr

/-- The f-string of lines 154-155. -/
def base_command_string (source_name table : String) : String :=
  "dbt run-operation generate_base_model --args \x27\x7b\"source_name\": \""
    ++ source_name ++ "\", \"table_name\": \"" ++ table ++ "\"\x7d\x27"

/-- Embedding of `base_command_generator` (lines 147-162).  The second component records the
arguments of its `os.makedirs` calls (one per table, line 153). -/
def base_command_generator (source_name : String) (table_mappings : List TableMapping)
    (destination_folder_path : String) : List BaseEntry × List String :=
  match table_mappings with
  | [] => ([], [])
  | t :: rest =>
    let base_cmd := base_command_string source_name t.table_name
    let out := base_command_generator source_name rest destination_folder_path
    (⟨t.table_name, t.file_name, base_cmd⟩ :: out.1, destination_folder_path :: out.2)

/-- Embedding of `all_base_commands_generator` (lines 133-144): note the hard-coded relative
`destination_folder_path = f'models/{source_name}'` of line 140.  The second
component aggregates the `os.makedirs` arguments. -/
def all_base_commands_generator (stms : List SourceTableMapping) :
    List (String × List BaseEntry) × List String :=
  match stms with
  | [] => ([], [])
  | sm :: rest =>
    let out := base_command_generator sm.source sm.tables ("models/" ++ sm.source)
    let outRest := all_base_commands_generator rest
    ((sm.source, out.1) :: outRest.1, out.2 ++ outRest.2)

/-! The executor `bash_run_and_make_files` (lines 165-217). -/

/-- Result of one external `subprocess.run` invocation. -/
structure ProcResult where
  exitCode : Nat
  stdout : List Char
deriving DecidableEq, Repr

/-- A planned execution: destination file plus the generation command; both branches
of `bash_run_and_make_files` iterate such pairs in their nested loops. -/
structure ExecEntry where
  dest : String
  command : String
deriving DecidableEq, Repr

/-- Outcome of a (partial) run: final filesystem, the generation commands that were
handed to `subprocess.run` in order, and the error that aborted the run, if any. -/
structure RunOutcome where
  fs : FS
  executed : List String
  err : Option RunError
deriving DecidableEq, Repr

/-- Python `str.lower()` (for the ASCII policy strings this program compares). -/
def pyLower (s : String) : String := ⟨s.data.map Char.toLower⟩

/-- The per-entry body shared by both branches of `bash_run_and_make_files`:
skip when the policy (lowercased) is `skip` and the destination exists; otherwise
run the command (non-zero exit aborts the whole run), slice the output from the
marker, strip escape sequences, and write with mode `'w'` for policy `replace`
and `'a'` otherwise. -/
def runEntries (gen : String → ProcResult) (marker : List Char) (if_exists : String) :
    FS → List ExecEntry → RunOutcome
  | fs, [] => ⟨fs, [], none⟩
  | fs, e :: rest =>
    if pyLower if_exists = "skip" ∧ fsExists fs e.dest then
      runEntries gen marker if_exists fs rest
    else
      let raw := gen e.command
      if raw.exitCode ≠ 0 then ⟨fs, [e.command], some (.generationFailed e.command)⟩
      else
        let cleaned := cleanOutput marker raw.stdout
        let open_mode_append : Bool := if pyLower if_exists = "replace" then false else true
        let fs2 := fsWrite fs e.dest open_mode_append cleaned
        let out := runEntries gen marker if_exists fs2 rest
        ⟨out.fs, e.command :: out.executed, out.err⟩

/-- The `cmd_type == 'src'` branch (lines 167-190): one execution per source mapping,
destination `source_destination_path`, command `source_command`, marker `'version: 2'`. -/
def bash_run_and_make_files_src (gen : String → ProcResult)
    (command_mappings : List SourceMapping) (if_exists : String) (fs : FS) : RunOutcome :=
  runEntries gen markerSource if_exists fs
    (command_mappings.map fun m => ⟨m.source_destination_path, m.source_command⟩)

/-- Flattening of the nested loops of the base branch (lines 192-217). -/
def baseExecEntries (command_mappings : List (String × List BaseEntry)) : List ExecEntry :=
  (command_mappings.map fun m => m.2.map fun t => ExecEntry.mk t.file_name t.base_command).flatten

/-- The `else` branch of `bash_run_and_make_files` (lines 192-217): one execution per
table of each source, destination `file_name`, command `base_command`, marker
`'with source as'`. -/
def bash_run_and_make_files_base (gen : String → ProcResult)
    (command_mappings : List (String × List BaseEntry)) (if_exists : String) (fs : FS) :
    RunOutcome :=
  runEntries gen markerBaseModel if_exists fs (baseExecEntries command_mappings)

/-- The generation pipeline of `main` (lines 234-246): plan sources, execute the
source phase, re-scan the written YAML files, plan base models, execute the
base-model phase.  `models_directory` is `os.path.join(dbt_project_directory,
'models')` (line 229). -/
def pipeline (gen : String → ProcResult) (parse : List Char → Option Yaml)
    (source_database_name : String) (source_schemas_list : List String)
    (generate_columns : Bool) (dbt_project_directory : String)
    (if_exists_behavior : String) (fs0 : FS) : RunOutcome :=
  let models_directory := pathJoin dbt_project_directory "models"
  let source_command_mappings :=
    (source_cmd_generator source_database_name source_schemas_list generate_columns
      models_directory).1
  let o1 := bash_run_and_make_files_src gen source_command_mappings if_exists_behavior fs0
  match o1.err with
  | some e => ⟨o1.fs, o1.executed, some e⟩
  | none =>
    match src_yml_scan parse o1.fs source_command_mappings with
    | .error e => ⟨o1.fs, o1.executed, some e⟩
    | .ok scanned =>
      let base_mappings := (all_base_commands_generator scanned).1
      let o2 := bash_run_and_make_files_base gen base_mappings if_exists_behavior o1.fs
      ⟨o2.fs, o1.executed ++ o2.executed, o2.err⟩

/-! The dependency validator `run_dbt_deps` (lines 72-87). -/

/-- Result of `run_dbt_deps`: which uncaught exception is raised, or that the
function reached the `subprocess.run(['dbt', 'deps'], ...)` call. -/
inductive DepsResult where
  | missingManifest : DepsResult
  | missingRequiredPackage : DepsResult
  | extractionError : DepsResult
  | ranDeps : DepsResult
deriving DecidableEq, Repr

/-- The list comprehension of line 81,
`[entry.get("package") for entry in package_data.get("packages", {})]`.
`none` models the uncaught Python exception when the `packages` value is not an
iterable of dicts (iterating a non-empty dict yields string keys, and
`str.get` does not exist; iterating `None` or a scalar raises TypeError). -/
def extract_package_list (package_data : List (String × Yaml)) :
    Option (List (Option Yaml)) :=
  match yamlLookup "packages" package_data with
  | none => some []
  | some (.list entries) =>
    entries.mapM fun e =>
      match e with
      | .map m => some (yamlLookup "package" m)
      | _ => none
  | some (.map []) => some []
  | some _ => none

/-- Embedding of `run_dbt_deps` (lines 72-87), for a `packages.yml` whose parse (after the
`or {}` of line 79) is the mapping `package_data`. -/
def run_dbt_deps (packages_file_exists : Bool) (package_data : List (String × Yaml)) :
    DepsResult :=
  if packages_file_exists = false then .missingManifest
  else
    match extract_package_list package_data with
    | none => .extractionError
    | some package_list =>
      if some (Yaml.str "fishtown-analytics/codegen") ∈ package_list then .ranDeps
      else .missingRequiredPackage

/-! Concrete fixtures (a process oracle and a parse oracle) used to instantiate the
theorems below on closed inputs. -/

/-- A process oracle: the source command for schema `sales` over database `lake`
prints a banner and a source YAML; every other command prints a base model. -/
def genFix : String → ProcResult := fun c =>
  if c = source_command_string "lake" "sales" true then
    ⟨0, "Found 2 models\x1b[0m\nversion: 2\nsources:\n  - name: sales\n".toList⟩
  else ⟨0, "12:00:00 log\x1b[32m\nwith source as (\n    select 1\n)\n".toList⟩

/-- A process oracle whose base-model command for `sales.orders` fails. -/
def genFailFix : String → ProcResult := fun c =>
  if c = base_command_string "sales" "orders" then ⟨2, "compilation error".toList⟩
  else ⟨0, "version: 2\nsources: []\n".toList⟩

/-- A parse oracle declaring one source with one table `orders`. -/
def parseFix : List Char → Option Yaml := fun _ =>
  some (.map [("sources", .list [.map [("tables", .list [.map [("name", .str "orders")]])]])])

example : cleanOutput markerSource "banner\x1b[0m\nversion: 2\nrest".toList
    = "version: 2\nrest".toList := by decide

example : cleanOutput markerSource "no marker \x1b[0m here".toList = "e".toList := by
  decide

example : regexAnsiEscapeSub "\x1b\x1b[0mA".toList = "\x1bA".toList := by decide

/-! Lemmas about `findIdx`, leading to the marker-slicing facts of the executor. -/

theorem prefix_to_substr {m s : List Char} (h : m <+: s) : m <:+: s := by
  obtain ⟨t, ht⟩ := h
  exact ⟨[], t, by simpa using ht⟩

theorem findIdx_eq_none_of_not_found {m s : List Char} (h : ¬ m <:+: s) :
    findIdx s m = none := by
  induction s with
  | nil =>
    have : ¬ m.isPrefixOf [] := fun hp =>
      h (prefix_to_substr ( List.isPrefixOf_iff_prefix.mp hp))
    simp [findIdx, this]
  | cons c rest ih =>
    have h1 : ¬ m.isPrefixOf (c :: rest) := fun hp =>
      h (prefix_to_substr ( List.isPrefixOf_iff_prefix.mp hp))
    have h2 : ¬ m <:+: rest := fun hi => h (List.infix_cons hi)
    simp [findIdx, h1, ih h2]

theorem findIdx_eq_zero_of_pref {m s : List Char} (h : m <+: s) (hm : m ≠ []) :
    findIdx s m = some 0 := by
  cases s with
  | nil =>
    exact absurd (List.prefix_nil.mp h) hm
  | cons c rest =>
    have : m.isPrefixOf (c :: rest) := List.isPrefixOf_iff_prefix.mpr h
    simp [findIdx, this]

/-- If `m` occurs as a prefix of `a ++ (m ++ r)` with `a` nonempty, then either `m`
occurs inside `a`, or `m` overlaps its own copy, which forces a period. -/
theorem prefix_mid_period {m a r : List Char} (hmp : m <+: a ++ (m ++ r)) (ha : a ≠ []) :
    m <:+: a ∨ ∃ k, 0 < k ∧ k < m.length ∧ m.drop k = m.take (m.length - k) := by
  rcases le_or_lt m.length a.length with hle | hlt
  · left
    have hm : m = (a ++ (m ++ r)).take m.length := List.prefix_iff_eq_take.mp hmp
    rw [List.take_append_of_le_length hle] at hm
    exact prefix_to_substr (hm ▸ List.take_prefix m.length a)
  · right
    refine ⟨a.length, List.length_pos.mpr ha, hlt, ?_⟩
    obtain ⟨t, ht⟩ := hmp
    have hta : m.take a.length = a := by
      have := congrArg (List.take a.length) ht
      rwa [List.take_append_of_le_length (le_of_lt hlt), List.take_left] at this
    have hdrop : m.drop a.length ++ t = m ++ r := by
      have hsplit : m.take a.length ++ m.drop a.length ++ t = a ++ (m ++ r) := by
        rw [List.take_append_drop]; exact ht
      rw [hta, List.append_assoc] at hsplit
      exact List.append_cancel_left hsplit
    have hlen : (m.drop a.length).length = m.length - a.length := List.length_drop _ _
    have h2 := congrArg (List.take (m.drop a.length).length) hdrop
    rw [List.take_left, hlen, List.take_append_of_le_length (Nat.sub_le _ _)] at h2
    exact h2

/-- With no occurrence in the banner and no nontrivial period of the marker, the
first occurrence of the marker in `banner ++ (marker ++ r)` is right after the
banner. -/
theorem findIdx_banner_append {m : List Char} (hm : m ≠ [])
    (hper : ∀ k, k < m.length → 0 < k → m.drop k ≠ m.take (m.length - k)) :
    ∀ banner r, ¬ m <:+: banner →
      findIdx (banner ++ (m ++ r)) m = some banner.length := by
  intro banner
  induction banner with
  | nil =>
    intro r _
    simpa using findIdx_eq_zero_of_pref (List.prefix_append m r) hm
  | cons c b ih =>
    intro r h
    have hnp : ¬ m.isPrefixOf (c :: (b ++ (m ++ r))) := by
      intro hp
      rcases prefix_mid_period ( List.isPrefixOf_iff_prefix.mp hp)
          (List.cons_ne_nil c b) with hin | ⟨k, hk0, hk1, hk2⟩
      · exact h hin
      · exact hper k hk1 hk0 hk2
    have hb : ¬ m <:+: b := fun hi => h (List.infix_cons hi)
    simp only [List.cons_append, findIdx, List.append_eq, hnp, if_false, ih r hb,
      Option.map_some', List.length_cons]
    simp

theorem markerSource_no_period :
    ∀ k, k < markerSource.length → 0 < k →
      markerSource.drop k ≠ markerSource.take (markerSource.length - k) := by decide

theorem markerSource_ne_nil : markerSource ≠ [] := by decide

/-- C2: when a generation command's captured output does not contain the payload
marker, no error is raised: `find` returns the sentinel `-1`, the output is sliced
from its last character, and the resulting escape-stripped slice (empty for empty
output) is what gets written. -/
theorem c2_missing_marker_slices_sentinel (marker out : List Char)
    (h : ¬ marker <:+: out) :
    cleanOutput marker out = regexAnsiEscapeSub (out.drop (out.length - 1))
      ∧ (out = [] → cleanOutput marker out = []) := by
  have hf : findIdx out marker = none := findIdx_eq_none_of_not_found h
  have hmain : cleanOutput marker out = regexAnsiEscapeSub (out.drop (out.length - 1)) := by
    unfold cleanOutput pyFind
    rw [hf]
    unfold pySliceFrom
    norm_num
  refine ⟨hmain, fun h0 => ?_⟩
  rw [hmain, h0]
  rfl

theorem c2_witness :
    (¬ markerSource <:+: "Done.\x1b[0m no yaml came out".toList)
      ∧ (cleanOutput markerSource "Done.\x1b[0m no yaml came out".toList
          = regexAnsiEscapeSub ("Done.\x1b[0m no yaml came out".toList.drop
              ("Done.\x1b[0m no yaml came out".toList.length - 1))
        ∧ ("Done.\x1b[0m no yaml came out".toList = []
            → cleanOutput markerSource "Done.\x1b[0m no yaml came out".toList = [])) :=
  ⟨by decide, c2_missing_marker_slices_sentinel markerSource
    "Done.\x1b[0m no yaml came out".toList (by decide)⟩

/-- C5: for a source-phase output `banner ++ "version: 2\n" ++ rest` whose banner
does not contain the marker `version: 2`, the written content is exactly
`"version: 2\n" ++ rest` with ANSI escape sequences removed. -/
theorem c5_marker_slices_banner (banner rest : List Char)
    (h : ¬ markerSource <:+: banner) :
    cleanOutput markerSource (banner ++ "version: 2\n".toList ++ rest)
      = regexAnsiEscapeSub ("version: 2\n".toList ++ rest) := by
  have hsplit : "version: 2\n".toList ++ rest = markerSource ++ ('\n' :: rest) := by
    rfl
  rw [List.append_assoc, hsplit]
  have hfind : findIdx (banner ++ (markerSource ++ ('\n' :: rest))) markerSource
      = some banner.length :=
    findIdx_banner_append markerSource_ne_nil markerSource_no_period banner _ h
  unfold cleanOutput pyFind
  rw [hfind]
  unfold pySliceFrom
  simp [List.drop_left]

theorem c5_witness :
    (¬ markerSource <:+: "Running dbt...\x1b[32mok\x1b[0m\n".toList)
      ∧ cleanOutput markerSource
          ("Running dbt...\x1b[32mok\x1b[0m\n".toList ++ "version: 2\n".toList
            ++ "sources:\n  - name: sales\n".toList)
        = regexAnsiEscapeSub ("version: 2\n".toList ++ "sources:\n  - name: sales\n".toList) :=
  ⟨by decide, c5_marker_slices_banner "Running dbt...\x1b[32mok\x1b[0m\n".toList
    "sources:\n  - name: sales\n".toList (by decide)⟩

/-! C6: the claim describes the single-byte branch of the escape pattern as
"@-Z, backslash, ^, _", omitting 0x5D (`]`), which the regex range 0x5C-0x5F
does match.  The next definitions follow the claim's wording, for comparison. -/

/-- Modelled from the claim's words: a single byte in `@`-`Z`, backslash, `^`, `_`
(so, unlike `isFeByte` from the source regex, not `]`). -/
def isClaimFeByte (c : Char) : Bool :=
  (64 ≤ c.toNat && c.toNat ≤ 90) || c.toNat == 92 || c.toNat == 94 || c.toNat == 95

/-- Modelled from the claim's words: `matchEscTail` with the claim's single-byte
class. -/
def claimMatchEscTail (l : List Char) : Option (List Char) :=
  match l with
  | [] => none
  | c :: rest =>
    if isClaimFeByte c then some rest
    else if c = '[' then
      match (rest.dropWhile isCsiParamByte).dropWhile isCsiIntermediateByte with
      | d :: rest2 => if isCsiFinalByte d then some rest2 else none
      | [] => none
    else none

/-- Modelled from the claim's words: `true` iff the pattern as the claim describes
it occurs somewhere in `s`. -/
def hasClaimAnsiOccurrence : List Char → Bool
  | [] => false
  | c :: rest =>
    if c = escChar then (claimMatchEscTail rest).isSome || hasClaimAnsiOccurrence rest
    else hasClaimAnsiOccurrence rest

/-- C6 counterexample: the two-character string ESC `]` contains no occurrence of
the pattern as the claim enumerates it, yet the regex substitution deletes it, so
it is not returned unchanged. -/
theorem c6_counterexample :
    hasClaimAnsiOccurrence ['\x1b', '\x5d'] = false
      ∧ regexAnsiEscapeSub ['\x1b', '\x5d'] ≠ ['\x1b', '\x5d'] := by decide

theorem ansiSubFuel_of_no_occurrence {s : List Char} (h : hasAnsiOccurrence s = false) :
    ∀ fuel, s.length ≤ fuel → ansiSubFuel fuel s = s := by
  induction s with
  | nil => intro fuel _; cases fuel <;> rfl
  | cons c rest ih =>
    intro fuel hfuel
    match fuel, hfuel with
    | f + 1, hf =>
      simp only [hasAnsiOccurrence] at h
      by_cases hc : c = escChar
      · rw [if_pos hc] at h
        rcases Bool.or_eq_false_iff.mp h with ⟨h1, h2⟩
        have hnone : matchEscTail rest = none := Option.not_isSome_iff_eq_none.mp (by
          simp [h1])
        simp only [ansiSubFuel, if_pos hc, hnone]
        rw [ih h2 f (Nat.le_of_succ_le_succ hf)]
      · rw [if_neg hc] at h
        simp only [ansiSubFuel, if_neg hc]
        rw [ih h f (Nat.le_of_succ_le_succ hf)]

/-- C6 amended: stripping is a no-op on every string with no occurrence of the
regex's actual pattern — ESC followed by one byte in `@`-`Z` or in backslash-`_`
(which includes `]`), or by `[` with parameter/intermediate bytes and a final
byte. -/
theorem c6_amended_strip_noop (s : List Char) (h : hasAnsiOccurrence s = false) :
    regexAnsiEscapeSub s = s :=
  ansiSubFuel_of_no_occurrence h s.length le_rfl

theorem c6_witness :
    (hasAnsiOccurrence "version: 2\nsources:\n  - name: x\n".toList = false)
      ∧ regexAnsiEscapeSub "version: 2\nsources:\n  - name: x\n".toList
        = "version: 2\nsources:\n  - name: x\n".toList :=
  ⟨by decide, c6_amended_strip_noop "version: 2\nsources:\n  - name: x\n".toList
    (by decide)⟩

/-! C7: `run_dbt_deps` with a missing or empty `packages` collection. -/

/-- C7: if `packages.yml` exists and parses to a mapping whose `packages`
collection is missing or empty (including `packages: []`), the extraction of
line 81 succeeds with zero entries, and the function then raises the
missing-required-package error — the `dbt deps` install command is not reached. -/
theorem c7_empty_packages_fails (package_data : List (String × Yaml))
    (h : yamlLookup "packages" package_data = none
      ∨ yamlLookup "packages" package_data = some (.list [])
      ∨ yamlLookup "packages" package_data = some (.map [])) :
    extract_package_list package_data = some []
      ∧ run_dbt_deps true package_data = .missingRequiredPackage := by
  have hext : extract_package_list package_data = some [] := by
    unfold extract_package_list
    rcases h with h | h | h
    all_goals rw [h]
    rfl
  refine ⟨hext, ?_⟩
  unfold run_dbt_deps
  rw [hext]
  rfl

theorem c7_witness :
    (yamlLookup "packages" [("packages", Yaml.list [])] = none
      ∨ yamlLookup "packages" [("packages", Yaml.list [])] = some (.list [])
      ∨ yamlLookup "packages" [("packages", Yaml.list [])] = some (.map []))
      ∧ (extract_package_list [("packages", Yaml.list [])] = some []
        ∧ run_dbt_deps true [("packages", Yaml.list [])] = .missingRequiredPackage) :=
  ⟨Or.inr (Or.inl rfl), c7_empty_packages_fails [("packages", Yaml.list [])]
    (Or.inr (Or.inl rfl))⟩

/-! Step equations and general lemmas for the executor `runEntries`. -/

theorem runEntries_nil (gen : String → ProcResult) (marker : List Char)
    (pol : String) (fs : FS) : runEntries gen marker pol fs [] = ⟨fs, [], none⟩ := rfl

theorem runEntries_cons (gen : String → ProcResult) (marker : List Char) (pol : String)
    (fs : FS) (e : ExecEntry) (rest : List ExecEntry) :
    runEntries gen marker pol fs (e :: rest) =
      if pyLower pol = "skip" ∧ fsExists fs e.dest = true then
        runEntries gen marker pol fs rest
      else if (gen e.command).exitCode ≠ 0 then
        ⟨fs, [e.command], some (.generationFailed e.command)⟩
      else
        let out := runEntries gen marker pol
          (fsWrite fs e.dest (if pyLower pol = "replace" then false else true)
            (cleanOutput marker (gen e.command).stdout)) rest
        ⟨out.fs, e.command :: out.executed, out.err⟩ := rfl

theorem runEntries_cons_skip {gen : String → ProcResult} {marker : List Char}
    {pol : String} {fs : FS} {e : ExecEntry} {rest : List ExecEntry}
    (h : pyLower pol = "skip" ∧ fsExists fs e.dest = true) :
    runEntries gen marker pol fs (e :: rest) = runEntries gen marker pol fs rest := by
  rw [runEntries_cons, if_pos h]

theorem runEntries_cons_fail {gen : String → ProcResult} {marker : List Char}
    {pol : String} {fs : FS} {e : ExecEntry} {rest : List ExecEntry}
    (h1 : ¬ (pyLower pol = "skip" ∧ fsExists fs e.dest = true))
    (h2 : (gen e.command).exitCode ≠ 0) :
    runEntries gen marker pol fs (e :: rest)
      = ⟨fs, [e.command], some (.generationFailed e.command)⟩ := by
  rw [runEntries_cons, if_neg h1, if_pos h2]

theorem runEntries_cons_run {gen : String → ProcResult} {marker : List Char}
    {pol : String} {fs : FS} {e : ExecEntry} {rest : List ExecEntry}
    (h1 : ¬ (pyLower pol = "skip" ∧ fsExists fs e.dest = true))
    (h2 : ¬ (gen e.command).exitCode ≠ 0) :
    runEntries gen marker pol fs (e :: rest)
      = ⟨(runEntries gen marker pol
            (fsWrite fs e.dest (if pyLower pol = "replace" then false else true)
              (cleanOutput marker (gen e.command).stdout)) rest).fs,
         e.command
           :: (runEntries gen marker pol
                (fsWrite fs e.dest (if pyLower pol = "replace" then false else true)
                  (cleanOutput marker (gen e.command).stdout)) rest).executed,
         (runEntries gen marker pol
            (fsWrite fs e.dest (if pyLower pol = "replace" then false else true)
              (cleanOutput marker (gen e.command).stdout)) rest).err⟩ := by
  rw [runEntries_cons, if_neg h1, if_neg h2]

/-- The executor looks at the policy only through the two lowercase comparisons. -/
theorem runEntries_policy_congr (gen : String → ProcResult) (marker : List Char)
    {p q : String} (hs : pyLower p = "skip" ↔ pyLower q = "skip")
    (hr : pyLower p = "replace" ↔ pyLower q = "replace") :
    ∀ es fs, runEntries gen marker p fs es = runEntries gen marker q fs es := by
  intro es
  induction es with
  | nil => intro fs; rfl
  | cons e rest ih =>
    intro fs
    by_cases h1 : pyLower p = "skip" ∧ fsExists fs e.dest = true
    · rw [runEntries_cons_skip h1, runEntries_cons_skip ⟨hs.mp h1.1, h1.2⟩, ih]
    · have h2 : ¬ (pyLower q = "skip" ∧ fsExists fs e.dest = true) := fun hh =>
        h1 ⟨hs.mpr hh.1, hh.2⟩
      by_cases hexit : (gen e.command).exitCode ≠ 0
      · rw [runEntries_cons_fail h1 hexit, runEntries_cons_fail h2 hexit]
      · have hmode : (if pyLower p = "replace" then false else true)
            = (if pyLower q = "replace" then false else true) := by
          by_cases hrp : pyLower p = "replace"
          · rw [if_pos hrp, if_pos (hr.mp hrp)]
          · rw [if_neg hrp, if_neg (fun hh => hrp (hr.mpr hh))]
        rw [runEntries_cons_run h1 hexit, runEntries_cons_run h2 hexit, hmode, ih]

/-- C9: an `if_exists` value that lowercases to neither `skip` nor `replace` is not
rejected: the executor behaves exactly as under `append` (command always runs, file
opened in mode `'a'`), and both policy checks are case-insensitive (only the
lowercase image of the policy matters). -/
theorem c9_fallthrough_is_append (gen : String → ProcResult) (marker : List Char)
    (fs : FS) (es : List ExecEntry) :
    (∀ pol : String, pyLower pol ≠ "skip" → pyLower pol ≠ "replace" →
      runEntries gen marker pol fs es = runEntries gen marker "append" fs es)
    ∧ (∀ p q : String, pyLower p = pyLower q →
      runEntries gen marker p fs es = runEntries gen marker q fs es) := by
  constructor
  · intro pol h1 h2
    exact runEntries_policy_congr gen marker
      (iff_of_false h1 (by decide)) (iff_of_false h2 (by decide)) es fs
  · intro p q hpq
    exact runEntries_policy_congr gen marker (by rw [hpq]) (by rw [hpq]) es fs

theorem c9_witness :
    (pyLower "Overwrite" ≠ "skip" ∧ pyLower "Overwrite" ≠ "replace")
      ∧ runEntries genFix markerSource "Overwrite" []
          [⟨"m/sales/_src_sales.yml", source_command_string "lake" "sales" true⟩]
        = runEntries genFix markerSource "append" []
          [⟨"m/sales/_src_sales.yml", source_command_string "lake" "sales" true⟩] :=
  ⟨⟨by decide, by decide⟩,
    (c9_fallthrough_is_append genFix markerSource []
      [⟨"m/sales/_src_sales.yml", source_command_string "lake" "sales" true⟩]).1
      "Overwrite" (by decide) (by decide)⟩

/-! C4: appending N runs of the same entry. -/

theorem fsRead_fsWrite_self (fs : FS) (p : String) (app : Bool) (c : List Char) :
    fsRead (fsWrite fs p app c) p
      = some (if app then (match fsRead fs p with
          | some old => old ++ c
          | none => c) else c) := by
  have h2 : fsRead (fsWrite fs p app c) p
      = if p = p then some (if app then (match fsRead fs p with
          | some old => old ++ c
          | none => c) else c) else fsRead fs p := rfl
  rw [h2, if_pos rfl]

theorem fsRead_fsWrite_other {p q : String} (fs : FS) (app : Bool) (c : List Char)
    (h : q ≠ p) : fsRead (fsWrite fs q app c) p = fsRead fs p := by
  have h2 : fsRead (fsWrite fs q app c) p
      = if q = p then some (if app then (match fsRead fs q with
          | some old => old ++ c
          | none => c) else c) else fsRead fs p := rfl
  rw [h2, if_neg h]

theorem runEntries_append_replicate (gen : String → ProcResult) (marker : List Char)
    (pol : String) (e : ExecEntry) (hs : pyLower pol ≠ "skip")
    (hr : pyLower pol ≠ "replace") (hexit : (gen e.command).exitCode = 0) :
    ∀ (n : Nat) (fs : FS) (c : List Char), fsRead fs e.dest = some c →
      (runEntries gen marker pol fs (List.replicate n e)).err = none
        ∧ fsRead (runEntries gen marker pol fs (List.replicate n e)).fs e.dest
          = some (c ++ (List.replicate n (cleanOutput marker (gen e.command).stdout)).flatten) := by
  intro n
  induction n with
  | zero => intro fs c hread; simpa [runEntries_nil] using hread
  | succ m ih =>
    intro fs c hread
    have h1 : ¬ (pyLower pol = "skip" ∧ fsExists fs e.dest = true) := fun hh => hs hh.1
    have h2 : ¬ (gen e.command).exitCode ≠ 0 := fun hh => hh hexit
    rw [List.replicate_succ, runEntries_cons_run h1 h2]
    rw [if_neg hr]
    have hread2 : fsRead (fsWrite fs e.dest true (cleanOutput marker (gen e.command).stdout))
        e.dest = some (c ++ cleanOutput marker (gen e.command).stdout) := by
      rw [fsRead_fsWrite_self]
      simp [hread]
    have := ih (fsWrite fs e.dest true (cleanOutput marker (gen e.command).stdout))
      (c ++ cleanOutput marker (gen e.command).stdout) hread2
    refine ⟨this.1, ?_⟩
    rw [this.2]
    simp [List.append_assoc, List.replicate_succ]

/-- C4: under a policy that lowercases to neither `skip` nor `replace` (`append`, or
any fallthrough value), running the same plan entry `n ≥ 1` times against an
initially absent destination, with the command always succeeding with the same
output, leaves the destination containing exactly `n` concatenated copies of one
run's cleaned (marker-sliced, escape-stripped) output; and a single `skip`-policy
execution on the absent destination behaves identically to an `append` one. -/
theorem c4_append_n_copies (gen : String → ProcResult) (marker : List Char)
    (pol : String) (e : ExecEntry) (n : Nat) (fs : FS)
    (hs : pyLower pol ≠ "skip") (hr : pyLower pol ≠ "replace")
    (hexit : (gen e.command).exitCode = 0) (habsent : fsRead fs e.dest = none)
    (hn : 0 < n) :
    ((runEntries gen marker pol fs (List.replicate n e)).err = none
      ∧ fsRead (runEntries gen marker pol fs (List.replicate n e)).fs e.dest
        = some ((List.replicate n (cleanOutput marker (gen e.command).stdout)).flatten))
    ∧ runEntries gen marker "skip" fs [e] = runEntries gen marker pol fs [e] := by
  constructor
  · obtain ⟨m, rfl⟩ := Nat.exists_eq_succ_of_ne_zero (Nat.pos_iff_ne_zero.mp hn)
    have h1 : ¬ (pyLower pol = "skip" ∧ fsExists fs e.dest = true) := fun hh => hs hh.1
    have h2 : ¬ (gen e.command).exitCode ≠ 0 := fun hh => hh hexit
    rw [List.replicate_succ, runEntries_cons_run h1 h2, if_neg hr]
    have hread2 : fsRead (fsWrite fs e.dest true (cleanOutput marker (gen e.command).stdout))
        e.dest = some (cleanOutput marker (gen e.command).stdout) := by
      rw [fsRead_fsWrite_self]
      simp [habsent]
    have := runEntries_append_replicate gen marker pol e hs hr hexit m
      (fsWrite fs e.dest true (cleanOutput marker (gen e.command).stdout))
      (cleanOutput marker (gen e.command).stdout) hread2
    exact ⟨this.1, by rw [this.2, List.replicate_succ, List.flatten_cons]⟩
  · have hnotex : fsExists fs e.dest = false := by unfold fsExists; simp [habsent]
    have hskip1 : ¬ (pyLower "skip" = "skip" ∧ fsExists fs e.dest = true) := by
      simp [hnotex]
    have hpol1 : ¬ (pyLower pol = "skip" ∧ fsExists fs e.dest = true) := fun hh => hs hh.1
    by_cases hexit2 : (gen e.command).exitCode ≠ 0
    · rw [runEntries_cons_fail hskip1 hexit2, runEntries_cons_fail hpol1 hexit2]
    · rw [runEntries_cons_run hskip1 hexit2, runEntries_cons_run hpol1 hexit2]
      have : (if pyLower "skip" = "replace" then false else true)
          = (if pyLower pol = "replace" then false else true) := by
        rw [if_neg (by decide), if_neg hr]
      rw [this]
      simp [runEntries_nil]

theorem c4_witness :
    ((genFix (source_command_string "lake" "sales" true)).exitCode = 0
      ∧ fsRead [] "m/sales/_src_sales.yml" = none
      ∧ 0 < 2)
    ∧ (((runEntries genFix markerSource "append" []
          (List.replicate 2
            ⟨"m/sales/_src_sales.yml", source_command_string "lake" "sales" true⟩)).err
            = none
        ∧ fsRead (runEntries genFix markerSource "append" []
            (List.replicate 2
              ⟨"m/sales/_src_sales.yml", source_command_string "lake" "sales" true⟩)).fs
            (ExecEntry.mk "m/sales/_src_sales.yml"
              (source_command_string "lake" "sales" true)).dest
          = some ((List.replicate 2 (cleanOutput markerSource
              (genFix (ExecEntry.mk "m/sales/_src_sales.yml"
                (source_command_string "lake" "sales" true)).command).stdout)).flatten))
      ∧ runEntries genFix markerSource "skip" []
          [⟨"m/sales/_src_sales.yml", source_command_string "lake" "sales" true⟩]
        = runEntries genFix markerSource "append" []
          [⟨"m/sales/_src_sales.yml", source_command_string "lake" "sales" true⟩]) :=
  ⟨⟨by decide, rfl, by decide⟩,
    c4_append_n_copies genFix markerSource "append"
      ⟨"m/sales/_src_sales.yml", source_command_string "lake" "sales" true⟩ 2 []
      (by decide) (by decide) (by decide) rfl (by decide)⟩

/-! C8: a failing generation command aborts the whole run at that entry. -/

theorem runEntries_split (gen : String → ProcResult) (marker : List Char)
    (pol : String) :
    ∀ (es1 es2 : List ExecEntry) (fs : FS),
      runEntries gen marker pol fs (es1 ++ es2)
        = match (runEntries gen marker pol fs es1).err with
          | some _ => runEntries gen marker pol fs es1
          | none =>
            ⟨(runEntries gen marker pol (runEntries gen marker pol fs es1).fs es2).fs,
             (runEntries gen marker pol fs es1).executed
               ++ (runEntries gen marker pol
                    (runEntries gen marker pol fs es1).fs es2).executed,
             (runEntries gen marker pol (runEntries gen marker pol fs es1).fs es2).err⟩ := by
  intro es1
  induction es1 with
  | nil => intro es2 fs; simp [runEntries_nil]
  | cons e es1 ih =>
    intro es2 fs
    by_cases h1 : pyLower pol = "skip" ∧ fsExists fs e.dest = true
    · rw [List.cons_append, runEntries_cons_skip h1, ih es2 fs, runEntries_cons_skip h1]
    · by_cases h2 : (gen e.command).exitCode ≠ 0
      · rw [List.cons_append, runEntries_cons_fail h1 h2, runEntries_cons_fail h1 h2]
      · rw [List.cons_append, runEntries_cons_run h1 h2, ih es2 _,
          runEntries_cons_run h1 h2]
        cases herr : (runEntries gen marker pol
            (fsWrite fs e.dest (if pyLower pol = "replace" then false else true)
              (cleanOutput marker (gen e.command).stdout)) es1).err with
        | none => simp [herr]
        | some er => simp only [herr]

/-- C8: if, after the successfully processed prefix `es1`, the next entry `e` is not
skipped and its generation command exits non-zero, the run stops with the
generation-failed error: nothing is written for `e`, the files produced by `es1`
are untouched on the resulting filesystem, the failing command is the last one
executed, and no entry of `es2` runs. -/
theorem c8_nonzero_exit_aborts (gen : String → ProcResult) (marker : List Char)
    (pol : String) (es1 : List ExecEntry) (e : ExecEntry) (es2 : List ExecEntry)
    (fs0 : FS) (herr : (runEntries gen marker pol fs0 es1).err = none)
    (hrun : ¬ (pyLower pol = "skip"
      ∧ fsExists (runEntries gen marker pol fs0 es1).fs e.dest = true))
    (hexit : (gen e.command).exitCode ≠ 0) :
    runEntries gen marker pol fs0 (es1 ++ e :: es2)
      = ⟨(runEntries gen marker pol fs0 es1).fs,
         (runEntries gen marker pol fs0 es1).executed ++ [e.command],
         some (.generationFailed e.command)⟩ := by
  rw [runEntries_split gen marker pol es1 (e :: es2) fs0, herr]
  rw [runEntries_cons_fail hrun hexit]

theorem c8_witness :
    ((runEntries genFailFix markerBaseModel "append" [] []).err = none
      ∧ ¬ (pyLower "append" = "skip"
        ∧ fsExists (runEntries genFailFix markerBaseModel "append" [] []).fs
            "m/sales/stg_sales__orders.sql" = true)
      ∧ (genFailFix (base_command_string "sales" "orders")).exitCode ≠ 0)
    ∧ runEntries genFailFix markerBaseModel "append" []
        ([] ++ ⟨"m/sales/stg_sales__orders.sql", base_command_string "sales" "orders"⟩
          :: [⟨"m/sales/stg_sales__other.sql", base_command_string "sales" "other"⟩])
      = ⟨(runEntries genFailFix markerBaseModel "append" [] []).fs,
         (runEntries genFailFix markerBaseModel "append" [] []).executed
           ++ [(ExecEntry.mk "m/sales/stg_sales__orders.sql"
                (base_command_string "sales" "orders")).command],
         some (.generationFailed
           (ExecEntry.mk "m/sales/stg_sales__orders.sql"
             (base_command_string "sales" "orders")).command)⟩ :=
  ⟨⟨rfl, by decide, by decide⟩,
    c8_nonzero_exit_aborts genFailFix markerBaseModel "append" []
      ⟨"m/sales/stg_sales__orders.sql", base_command_string "sales" "orders"⟩
      [⟨"m/sales/stg_sales__other.sql", base_command_string "sales" "other"⟩] []
      rfl (by decide) (by decide)⟩

/-! C1: the source plan, one entry per schema, in order, with its destination path. -/

theorem pathJoin_data (a b : String) :
    (pathJoin a b).data = a.data ++ ('/' :: b.data) := by
  show ((a ++ "/") ++ b).data = _
  rw [String.data_append, String.data_append]
  simp

theorem source_cmd_generator_entries (db : String) (gc : Bool) (root : String) :
    ∀ schemas : List String,
      ((source_cmd_generator db schemas gc root).1.map
          fun m => (m.source, m.source_destination_path))
        = schemas.map fun s => (s, pathJoin (pathJoin root s) ("_src_" ++ s ++ ".yml")) := by
  intro schemas
  induction schemas with
  | nil => rfl
  | cons s rest ih => simp [source_cmd_generator, ih]

theorem dest_path_injective (root : String) :
    Function.Injective fun s : String =>
      pathJoin (pathJoin root s) ("_src_" ++ s ++ ".yml") := by
  intro s t h
  have hd := congrArg String.data h
  simp only [pathJoin_data, String.data_append, List.append_assoc, List.cons_append] at hd
  have hlen := congrArg List.length hd
  simp only [List.length_append, List.length_cons] at hlen
  have hlen2 : s.data.length = t.data.length := by omega
  have h2 := List.append_cancel_left hd
  injection h2 with _ h3
  rcases List.append_inj h3 hlen2 with ⟨h4, _⟩
  exact String.ext h4

/-- C1 amended: `source_cmd_generator` returns exactly one entry per input schema
name, in input order, each with destination path
`<output_root>/<schema>/_src_<schema>.yml`; when the input schema names are
pairwise distinct the destination paths are pairwise distinct (a duplicated schema
name yields its own entry with the same path, so distinctness cannot hold
unconditionally). -/
theorem c1_amended_plan_sources (db : String) (schemas : List String) (gc : Bool)
    (root : String) :
    ((source_cmd_generator db schemas gc root).1.map
        fun m => (m.source, m.source_destination_path))
      = (schemas.map fun s => (s, pathJoin (pathJoin root s) ("_src_" ++ s ++ ".yml")))
    ∧ (schemas.Nodup →
      ((source_cmd_generator db schemas gc root).1.map
          fun m => m.source_destination_path).Nodup) := by
  have hmap1 := source_cmd_generator_entries db gc root schemas
  refine ⟨hmap1, fun hnodup => ?_⟩
  have hmap2 : ((source_cmd_generator db schemas gc root).1.map
      fun m => m.source_destination_path)
      = schemas.map fun s => pathJoin (pathJoin root s) ("_src_" ++ s ++ ".yml") := by
    have := congrArg (List.map Prod.snd) hmap1
    simpa [List.map_map, Function.comp] using this
  rw [hmap2]
  exact hnodup.map (dest_path_injective root)

/-- C1 counterexample: with the duplicated schema list `["a", "a"]` each occurrence
produces its own entry, and the two destination paths coincide, so they are not
pairwise distinct as the claim states. -/
theorem c1_counterexample :
    ((source_cmd_generator "lake" ["a", "a"] true "models").1.map
        fun m => m.source_destination_path)
      = ["models/a/_src_a.yml", "models/a/_src_a.yml"]
    ∧ ¬ ((source_cmd_generator "lake" ["a", "a"] true "models").1.map
        fun m => m.source_destination_path).Nodup := ⟨by decide, by decide⟩

theorem c1_witness :
    (["fivetran_log", "sales"] : List String).Nodup
      ∧ ((source_cmd_generator "lake" ["fivetran_log", "sales"] true "models").1.map
          fun m => m.source_destination_path).Nodup :=
  ⟨by decide,
    (c1_amended_plan_sources "lake" ["fivetran_log", "sales"] true "models").2 (by decide)⟩

/-! C10: the directory ensured by the base-model planner versus the directory that
actually contains each destination SQL file. -/

theorem base_command_generator_spec (src d : String) :
    ∀ tms : List TableMapping,
      (base_command_generator src tms d).1
        = tms.map (fun t => ⟨t.table_name, t.file_name, base_command_string src t.table_name⟩)
      ∧ (base_command_generator src tms d).2 = tms.map fun _ => d := by
  intro tms
  induction tms with
  | nil => exact ⟨rfl, rfl⟩
  | cons t rest ih => simp [base_command_generator, ih.1, ih.2]

theorem pathJoin_relative_resolution (project s : String) (cwd : String) :
    pathJoin cwd ("models/" ++ s) = pathJoin (pathJoin project "models") s
      ↔ cwd = project := by
  have e1 : ("models/" : String).data = ['m', 'o', 'd', 'e', 'l', 's', '/'] := rfl
  have e2 : ("models" : String).data = ['m', 'o', 'd', 'e', 'l', 's'] := rfl
  constructor
  · intro h
    have hd := congrArg String.data h
    simp only [pathJoin_data, String.data_append, e1, e2, List.append_assoc,
      List.cons_append, List.nil_append] at hd
    rcases List.append_inj' hd rfl with ⟨h4, _⟩
    exact String.ext h4
  · intro h
    rw [h]
    apply String.ext
    simp only [pathJoin_data, String.data_append, e1, e2, List.append_assoc,
      List.cons_append, List.nil_append]

/-- C10: in the base-model phase the directory passed to `os.makedirs` is the
hard-coded relative path `models/<schema>`, while each planned SQL file lives under
the located project's models directory `<project>/models/<schema>/...`; the two
refer to the same directory exactly when the current working directory is the
project root. -/
theorem c10_makedirs_vs_destination (parse : List Char → Option Yaml) (fs : FS)
    (db project s : String) (gc : Bool) (stms : List SourceTableMapping)
    (hscan : src_yml_scan parse fs
        (source_cmd_generator db [s] gc (pathJoin project "models")).1 = .ok stms) :
    (∀ d ∈ (all_base_commands_generator stms).2, d = "models/" ++ s)
    ∧ (∀ p ∈ (all_base_commands_generator stms).1, ∀ e ∈ p.2, ∃ t,
        e.file_name = pathJoin (pathJoin (pathJoin project "models") s)
          ("stg_" ++ s ++ "__" ++ t ++ ".sql"))
    ∧ (∀ cwd, pathJoin cwd ("models/" ++ s) = pathJoin (pathJoin project "models") s
        ↔ cwd = project) := by
  simp only [source_cmd_generator, src_yml_scan] at hscan
  split at hscan
  · exact absurd hscan (by simp)
  · split at hscan
    · exact absurd hscan (by simp)
    · split at hscan
      · exact absurd hscan (by simp)
      · rename_i names hnames
        injection hscan with hstms
        subst hstms
        refine ⟨?_, ?_, fun cwd => pathJoin_relative_resolution project s cwd⟩
        · intro d hd
          simp only [all_base_commands_generator] at hd
          rw [(base_command_generator_spec _ _ _).2] at hd
          simp only [List.append_nil, List.mem_map] at hd
          obtain ⟨_, _, hdq⟩ := hd
          exact hdq.symm
        · intro p hp e he
          simp only [all_base_commands_generator, List.mem_singleton] at hp
          subst hp
          rw [(base_command_generator_spec _ _ _).1] at he
          simp only [List.mem_map] at he
          obtain ⟨t, ⟨n, hn, htn⟩, hte⟩ := he
          refine ⟨n, ?_⟩
          subst hte
          subst htn
          rfl

theorem c10_witness :
    (src_yml_scan parseFix [("proj/models/sales/_src_sales.yml", "x".toList)]
        (source_cmd_generator "lake" ["sales"] true (pathJoin "proj" "models")).1
      = .ok [⟨"sales", "proj/models/sales", "_src_sales.yml",
          "proj/models/sales/_src_sales.yml", source_command_string "lake" "sales" true,
          [⟨"orders", "proj/models/sales/stg_sales__orders.sql"⟩]⟩])
    ∧ ((∀ d ∈ (all_base_commands_generator
          [⟨"sales", "proj/models/sales", "_src_sales.yml",
            "proj/models/sales/_src_sales.yml", source_command_string "lake" "sales" true,
            [⟨"orders", "proj/models/sales/stg_sales__orders.sql"⟩]⟩]).2,
          d = "models/" ++ "sales")
      ∧ (∀ p ∈ (all_base_commands_generator
          [⟨"sales", "proj/models/sales", "_src_sales.yml",
            "proj/models/sales/_src_sales.yml", source_command_string "lake" "sales" true,
            [⟨"orders", "proj/models/sales/stg_sales__orders.sql"⟩]⟩]).1, ∀ e ∈ p.2, ∃ t,
          e.file_name = pathJoin (pathJoin (pathJoin "proj" "models") "sales")
            ("stg_" ++ "sales" ++ "__" ++ t ++ ".sql"))
      ∧ (∀ cwd, pathJoin cwd ("models/" ++ "sales")
            = pathJoin (pathJoin "proj" "models") "sales" ↔ cwd = "proj")) :=
  ⟨rfl, c10_makedirs_vs_destination parseFix
    [("proj/models/sales/_src_sales.yml", "x".toList)] "lake" "proj" "sales" true
    [⟨"sales", "proj/models/sales", "_src_sales.yml",
      "proj/models/sales/_src_sales.yml", source_command_string "lake" "sales" true,
      [⟨"orders", "proj/models/sales/stg_sales__orders.sql"⟩]⟩] rfl⟩

/-! C3: lemmas about what the executor leaves on the filesystem. -/

theorem fsExists_fsWrite_self (fs : FS) (p : String) (app : Bool) (c : List Char) :
    fsExists (fsWrite fs p app c) p = true := by
  unfold fsExists
  rw [fsRead_fsWrite_self]
  rfl

theorem fsExists_fsWrite_mono {fs : FS} {p : String} (q : String) (app : Bool)
    (c : List Char) (h : fsExists fs p = true) :
    fsExists (fsWrite fs q app c) p = true := by
  by_cases hq : q = p
  · subst hq; exact fsExists_fsWrite_self fs q app c
  · unfold fsExists
    rw [fsRead_fsWrite_other fs app c hq]
    exact h

theorem runEntries_fs_monotone (gen : String → ProcResult) (marker : List Char)
    (pol : String) :
    ∀ (es : List ExecEntry) (fs : FS) (p : String), fsExists fs p = true →
      fsExists (runEntries gen marker pol fs es).fs p = true := by
  intro es
  induction es with
  | nil => intro fs p h; exact h
  | cons e rest ih =>
    intro fs p h
    by_cases h1 : pyLower pol = "skip" ∧ fsExists fs e.dest = true
    · rw [runEntries_cons_skip h1]; exact ih fs p h
    · by_cases h2 : (gen e.command).exitCode ≠ 0
      · rw [runEntries_cons_fail h1 h2]; exact h
      · rw [runEntries_cons_run h1 h2]
        exact ih _ p (fsExists_fsWrite_mono _ _ _ h)

theorem runEntries_skip_noop (gen : String → ProcResult) (marker : List Char)
    {pol : String} (hpol : pyLower pol = "skip") :
    ∀ (es : List ExecEntry) (fs : FS), (∀ e ∈ es, fsExists fs e.dest = true) →
      runEntries gen marker pol fs es = ⟨fs, [], none⟩ := by
  intro es
  induction es with
  | nil => intro fs _; rfl
  | cons e rest ih =>
    intro fs h
    rw [runEntries_cons_skip ⟨hpol, h e (List.mem_cons_self e rest)⟩]
    exact ih fs fun e2 he2 => h e2 (List.mem_cons_of_mem e he2)

theorem runEntries_success_post (gen : String → ProcResult) (marker : List Char)
    (pol : String) :
    ∀ (es : List ExecEntry) (fs : FS),
      (runEntries gen marker pol fs es).err = none →
      ∀ e ∈ es, fsExists (runEntries gen marker pol fs es).fs e.dest = true := by
  intro es
  induction es with
  | nil => intro fs _ e he; cases he
  | cons e rest ih =>
    intro fs herr e2 he2
    by_cases h1 : pyLower pol = "skip" ∧ fsExists fs e.dest = true
    · rw [runEntries_cons_skip h1] at herr ⊢
      rcases List.mem_cons.mp he2 with he2 | he2
      · subst he2; exact runEntries_fs_monotone gen marker pol rest fs e2.dest h1.2
      · exact ih fs herr e2 he2
    · by_cases h2 : (gen e.command).exitCode ≠ 0
      · rw [runEntries_cons_fail h1 h2] at herr
        cases herr
      · rw [runEntries_cons_run h1 h2] at herr ⊢
        rcases List.mem_cons.mp he2 with he2 | he2
        · subst he2
          exact runEntries_fs_monotone gen marker pol rest _ e2.dest
            (fsExists_fsWrite_self fs e2.dest _ _)
        · exact ih _ herr e2 he2

theorem runEntries_preserves_other (gen : String → ProcResult) (marker : List Char)
    (pol : String) :
    ∀ (es : List ExecEntry) (fs : FS) (p : String), (∀ e ∈ es, e.dest ≠ p) →
      fsRead (runEntries gen marker pol fs es).fs p = fsRead fs p := by
  intro es
  induction es with
  | nil => intro fs p _; rfl
  | cons e rest ih =>
    intro fs p h
    have hrest : ∀ e2 ∈ rest, e2.dest ≠ p := fun e2 he2 => h e2 (List.mem_cons_of_mem e he2)
    by_cases h1 : pyLower pol = "skip" ∧ fsExists fs e.dest = true
    · rw [runEntries_cons_skip h1]; exact ih fs p hrest
    · by_cases h2 : (gen e.command).exitCode ≠ 0
      · rw [runEntries_cons_fail h1 h2]
      · rw [runEntries_cons_run h1 h2]
        rw [ih _ p hrest, fsRead_fsWrite_other fs _ _ (h e (List.mem_cons_self e rest))]

theorem src_yml_scan_congr (parse : List Char → Option Yaml) {fs fs2 : FS} :
    ∀ ms : List SourceMapping,
      (∀ m ∈ ms, fsRead fs m.source_destination_path
        = fsRead fs2 m.source_destination_path) →
      src_yml_scan parse fs ms = src_yml_scan parse fs2 ms := by
  intro ms
  induction ms with
  | nil => intro _; rfl
  | cons m rest ih =>
    intro h
    have hm := h m (List.mem_cons_self m rest)
    have hrest := ih fun m2 hm2 => h m2 (List.mem_cons_of_mem m hm2)
    simp only [src_yml_scan, hm, hrest]

theorem yml_sql_paths_ne {p q : String} {x y : List Char}
    (hp : p.data = x ++ ".yml".data) (hq : q.data = y ++ ".sql".data) : q ≠ p := by
  intro h
  subst h
  have hxy : x ++ ".yml".data = y ++ ".sql".data := hp.symm.trans hq
  rcases List.append_inj' hxy rfl with ⟨_, habs⟩
  exact absurd habs (by decide)

theorem source_cmd_generator_yml_suffix (db : String) (gc : Bool) (root : String) :
    ∀ ss : List String, ∀ m ∈ (source_cmd_generator db ss gc root).1,
      ∃ x, m.source_destination_path.data = x ++ ".yml".data := by
  intro ss
  induction ss with
  | nil => intro m hm; cases hm
  | cons s rest ih =>
    intro m hm
    simp only [source_cmd_generator] at hm
    rcases List.mem_cons.mp hm with h | h
    · subst h
      refine ⟨(pathJoin root s).data ++ '/' :: ("_src_" ++ s).data, ?_⟩
      simp [pathJoin_data, String.data_append, List.append_assoc]
    · exact ih m h

theorem src_yml_scan_sql_suffix (parse : List Char → Option Yaml) (fs : FS) :
    ∀ (ms : List SourceMapping) (stms : List SourceTableMapping),
      src_yml_scan parse fs ms = .ok stms →
      ∀ sm ∈ stms, ∀ t ∈ sm.tables, ∃ x, t.file_name.data = x ++ ".sql".data := by
  intro ms
  induction ms with
  | nil =>
    intro stms h sm hsm t ht
    injection h with h2
    subst h2
    cases hsm
  | cons m rest ih =>
    intro stms h sm hsm t ht
    simp only [src_yml_scan] at h
    split at h
    · exact absurd h (by simp)
    · split at h
      · exact absurd h (by simp)
      · split at h
        · exact absurd h (by simp)
        · rename_i names hnames
          split at h
          · exact absurd h (by simp)
          · rename_i rest2 hrest2
            injection h with h2
            subst h2
            rcases List.mem_cons.mp hsm with hsm2 | hsm2
            · subst hsm2
              simp only [List.mem_map] at ht
              obtain ⟨n, _, hn⟩ := ht
              subst hn
              refine ⟨(m.destination_folder).data
                ++ '/' :: ((("stg_" ++ m.source) ++ "__") ++ n).data, ?_⟩
              simp [pathJoin_data, String.data_append, List.append_assoc]
            · exact ih rest2 hrest2 sm hsm2 t ht

theorem baseExecEntries_dest :
    ∀ stms : List SourceTableMapping,
      ∀ e ∈ baseExecEntries (all_base_commands_generator stms).1,
        ∃ sm ∈ stms, ∃ t ∈ sm.tables, e.dest = t.file_name := by
  intro stms
  induction stms with
  | nil => intro e he; cases he
  | cons sm rest ih =>
    intro e he
    simp only [all_base_commands_generator, baseExecEntries, List.map_cons,
      List.flatten_cons] at he
    rcases List.mem_append.mp he with h | h
    · rw [(base_command_generator_spec _ _ _).1] at h
      simp only [List.map_map, List.mem_map] at h
      obtain ⟨t, ht, hte⟩ := h
      exact ⟨sm, List.mem_cons_self sm rest, t, ht, by rw [← hte]; rfl⟩
    · obtain ⟨sm2, hsm2, t, ht, hdest⟩ := ih e h
      exact ⟨sm2, List.mem_cons_of_mem sm hsm2, t, ht, hdest⟩

theorem pipeline_unfold (gen : String → ProcResult) (parse : List Char → Option Yaml)
    (db : String) (schemas : List String) (gc : Bool) (proj : String) (pol : String)
    (fs0 : FS) :
    pipeline gen parse db schemas gc proj pol fs0
      = match (bash_run_and_make_files_src gen
            (source_cmd_generator db schemas gc (pathJoin proj "models")).1 pol fs0).err with
        | some e =>
          ⟨(bash_run_and_make_files_src gen
              (source_cmd_generator db schemas gc (pathJoin proj "models")).1 pol fs0).fs,
           (bash_run_and_make_files_src gen
              (source_cmd_generator db schemas gc (pathJoin proj "models")).1 pol fs0).executed,
           some e⟩
        | none =>
          match src_yml_scan parse
              (bash_run_and_make_files_src gen
                (source_cmd_generator db schemas gc (pathJoin proj "models")).1 pol fs0).fs
              (source_cmd_generator db schemas gc (pathJoin proj "models")).1 with
          | .error e =>
            ⟨(bash_run_and_make_files_src gen
                (source_cmd_generator db schemas gc (pathJoin proj "models")).1 pol fs0).fs,
             (bash_run_and_make_files_src gen
                (source_cmd_generator db schemas gc (pathJoin proj "models")).1 pol fs0).executed,
             some e⟩
          | .ok scanned =>
            ⟨(bash_run_and_make_files_base gen (all_base_commands_generator scanned).1 pol
                (bash_run_and_make_files_src gen
                  (source_cmd_generator db schemas gc (pathJoin proj "models")).1 pol fs0).fs).fs,
             (bash_run_and_make_files_src gen
                (source_cmd_generator db schemas gc (pathJoin proj "models")).1 pol fs0).executed
               ++ (bash_run_and_make_files_base gen (all_base_commands_generator scanned).1 pol
                    (bash_run_and_make_files_src gen
                      (source_cmd_generator db schemas gc (pathJoin proj "models")).1
                      pol fs0).fs).executed,
             (bash_run_and_make_files_base gen (all_base_commands_generator scanned).1 pol
                (bash_run_and_make_files_src gen
                  (source_cmd_generator db schemas gc (pathJoin proj "models")).1
                  pol fs0).fs).err⟩ := rfl

/-- C3: running the whole generation pipeline a second time under a `skip` policy,
with no filesystem changes in between, executes zero generation commands and leaves
every file exactly as the first run left it. -/
theorem c3_skip_second_run_noop (gen : String → ProcResult)
    (parse : List Char → Option Yaml) (db : String) (schemas : List String) (gc : Bool)
    (proj : String) (pol : String) (fs0 : FS) (hpol : pyLower pol = "skip")
    (herr : (pipeline gen parse db schemas gc proj pol fs0).err = none) :
    pipeline gen parse db schemas gc proj pol
        (pipeline gen parse db schemas gc proj pol fs0).fs
      = ⟨(pipeline gen parse db schemas gc proj pol fs0).fs, [], none⟩ := by
  rw [pipeline_unfold] at herr
  split at herr
  · simp at herr
  · rename_i heq1
    split at herr
    · simp at herr
    · rename_i scanned heq2
      have herr2 : (bash_run_and_make_files_base gen
          (all_base_commands_generator scanned).1 pol
          (bash_run_and_make_files_src gen
            (source_cmd_generator db schemas gc (pathJoin proj "models")).1
            pol fs0).fs).err = none := herr
      have hrun1 : pipeline gen parse db schemas gc proj pol fs0
          = ⟨(bash_run_and_make_files_base gen (all_base_commands_generator scanned).1 pol
                (bash_run_and_make_files_src gen
                  (source_cmd_generator db schemas gc (pathJoin proj "models")).1
                  pol fs0).fs).fs,
             (bash_run_and_make_files_src gen
                (source_cmd_generator db schemas gc (pathJoin proj "models")).1
                pol fs0).executed
               ++ (bash_run_and_make_files_base gen (all_base_commands_generator scanned).1 pol
                    (bash_run_and_make_files_src gen
                      (source_cmd_generator db schemas gc (pathJoin proj "models")).1
                      pol fs0).fs).executed,
             none⟩ := by
        rw [pipeline_unfold]
        simp only [heq1, heq2, herr2]
      have hsrcpost : ∀ e ∈ (source_cmd_generator db schemas gc (pathJoin proj "models")).1.map
          (fun m => ExecEntry.mk m.source_destination_path m.source_command),
          fsExists (bash_run_and_make_files_src gen
            (source_cmd_generator db schemas gc (pathJoin proj "models")).1
            pol fs0).fs e.dest = true :=
        runEntries_success_post gen markerSource pol _ fs0 heq1
      have hsrc_in_fs1 : ∀ e ∈ (source_cmd_generator db schemas gc (pathJoin proj "models")).1.map
          (fun m => ExecEntry.mk m.source_destination_path m.source_command),
          fsExists (bash_run_and_make_files_base gen (all_base_commands_generator scanned).1 pol
            (bash_run_and_make_files_src gen
              (source_cmd_generator db schemas gc (pathJoin proj "models")).1
              pol fs0).fs).fs e.dest = true :=
        fun e he => runEntries_fs_monotone gen markerBaseModel pol _ _ e.dest (hsrcpost e he)
      have hsrc_noop : bash_run_and_make_files_src gen
          (source_cmd_generator db schemas gc (pathJoin proj "models")).1 pol
          (bash_run_and_make_files_base gen (all_base_commands_generator scanned).1 pol
            (bash_run_and_make_files_src gen
              (source_cmd_generator db schemas gc (pathJoin proj "models")).1
              pol fs0).fs).fs
          = ⟨(bash_run_and_make_files_base gen (all_base_commands_generator scanned).1 pol
                (bash_run_and_make_files_src gen
                  (source_cmd_generator db schemas gc (pathJoin proj "models")).1
                  pol fs0).fs).fs, [], none⟩ :=
        runEntries_skip_noop gen markerSource hpol _ _ hsrc_in_fs1
      have hbasepost : ∀ e ∈ baseExecEntries (all_base_commands_generator scanned).1,
          fsExists (bash_run_and_make_files_base gen (all_base_commands_generator scanned).1 pol
            (bash_run_and_make_files_src gen
              (source_cmd_generator db schemas gc (pathJoin proj "models")).1
              pol fs0).fs).fs e.dest = true :=
        runEntries_success_post gen markerBaseModel pol _ _ herr2
      have hbase_noop : bash_run_and_make_files_base gen
          (all_base_commands_generator scanned).1 pol
          (bash_run_and_make_files_base gen (all_base_commands_generator scanned).1 pol
            (bash_run_and_make_files_src gen
              (source_cmd_generator db schemas gc (pathJoin proj "models")).1
              pol fs0).fs).fs
          = ⟨(bash_run_and_make_files_base gen (all_base_commands_generator scanned).1 pol
                (bash_run_and_make_files_src gen
                  (source_cmd_generator db schemas gc (pathJoin proj "models")).1
                  pol fs0).fs).fs, [], none⟩ :=
        runEntries_skip_noop gen markerBaseModel hpol _ _ hbasepost
      have hscan2 : src_yml_scan parse
          (bash_run_and_make_files_base gen (all_base_commands_generator scanned).1 pol
            (bash_run_and_make_files_src gen
              (source_cmd_generator db schemas gc (pathJoin proj "models")).1
              pol fs0).fs).fs
          (source_cmd_generator db schemas gc (pathJoin proj "models")).1 = .ok scanned := by
        have hpres : ∀ m ∈ (source_cmd_generator db schemas gc (pathJoin proj "models")).1,
            fsRead (bash_run_and_make_files_base gen (all_base_commands_generator scanned).1 pol
              (bash_run_and_make_files_src gen
                (source_cmd_generator db schemas gc (pathJoin proj "models")).1
                pol fs0).fs).fs m.source_destination_path
            = fsRead (bash_run_and_make_files_src gen
                (source_cmd_generator db schemas gc (pathJoin proj "models")).1
                pol fs0).fs m.source_destination_path := by
          intro m hm
          apply runEntries_preserves_other
          intro e he
          obtain ⟨sm, hsm, t, ht, hdest⟩ := baseExecEntries_dest scanned e he
          obtain ⟨x, hx⟩ := src_yml_scan_sql_suffix parse _ _ scanned heq2 sm hsm t ht
          obtain ⟨y, hy⟩ := source_cmd_generator_yml_suffix db gc (pathJoin proj "models")
            schemas m hm
          rw [hdest]
          exact yml_sql_paths_ne hy hx
        exact (src_yml_scan_congr parse _ hpres).trans heq2
      rw [hrun1]
      dsimp only
      rw [pipeline_unfold, hsrc_noop]
      dsimp only
      rw [hscan2]
      dsimp only
      rw [hbase_noop]
      simp

theorem c3_witness :
    (pyLower "skip" = "skip"
      ∧ (pipeline genFix parseFix "lake" ["sales"] true "proj" "skip" []).err = none)
    ∧ pipeline genFix parseFix "lake" ["sales"] true "proj" "skip"
        (pipeline genFix parseFix "lake" ["sales"] true "proj" "skip" []).fs
      = ⟨(pipeline genFix parseFix "lake" ["sales"] true "proj" "skip" []).fs, [], none⟩ :=
  ⟨⟨by decide, by decide⟩,
    c3_skip_second_run_noop genFix parseFix "lake" ["sales"] true "proj" "skip" []
      (by decide) (by decide)⟩
